import Mathlib

/-!
Shallow embedding of `app/main.py` of the task service
(FastAPI + sqlite): data model, store operations, HTTP handlers,
observability middleware, and module-level application construction.

Conventions of the embedding:
* the sqlite table `tasks` is a list of rows in insertion (rowid) order,
  together with the AUTOINCREMENT counter (`nextId` = next id the store
  will assign; AUTOINCREMENT never reuses ids);
* each handler is embedded statement by statement; every store call
  (`con.execute`, `con.commit`) takes a Bool fault flag saying whether
  that call raises, so that exception paths of the Python code are
  explicit paths of the Lean function;
* the sqlite connection is modelled by its only observable used here:
  whether `con.close()` has been called;
* machine integers do not overflow in scope (sqlite INTEGER ids are
  arbitrary-precision for our purposes), so ids are `Nat` and the path
  parameter `task_id : int` is `Int`.
-/

namespace App

/-- Row of the `tasks` table: columns `id`, `title`, `done` (INTEGER 0/1),
`created_at` (TEXT), as created by `init_db`. -/
structure Task where
  id : Nat
  title : String
  done : Nat
  created_at : String
deriving DecidableEq

/-- State of the store: the rows of the `tasks` table in rowid order and
the AUTOINCREMENT counter (the id the next INSERT will be assigned). -/
structure DB where
  tasks : List Task
  nextId : Nat
deriving DecidableEq

/-- The store right after `init_db` ran on a fresh database file:
no rows, first assigned id is 1 (sqlite AUTOINCREMENT starts at 1). -/
def init_db : DB := ⟨[], 1⟩

/-- Response bodies of the documented HTTP surface. `healthOk` stands for
the JSON object with status "ok" and db "ok"; `detail s` stands for the
JSON object with a single field "detail" holding `s` (the shape FastAPI
produces for `HTTPException` and for unmatched routes); `validationError`
stands for the 422 body pydantic validation produces; `metricsExposition`
for the Prometheus text format of `/metrics`. -/
inductive Body where
  | healthOk
  | tasks (ts : List Task)
  | task (t : Task)
  | detail (s : String)
  | validationError
  | metricsExposition
deriving DecidableEq

/-- An HTTP response: status code and body. -/
structure Response where
  status : Nat
  body : Body
deriving DecidableEq

/-- The sqlite connection handle, reduced to the only fact the claims
need: whether `close()` has been called on it. `connect()` yields an open
handle. -/
structure Conn where
  closed : Bool
deriving DecidableEq

/-- Embeds `connect()` (lines 43-47): a fresh, open connection. -/
def connect : Conn := ⟨false⟩

/-- Embeds `con.close()`. -/
def Conn.close (_ : Conn) : Conn := ⟨true⟩

/-- Outcome of running one handler body: normal return of a response,
`raise HTTPException(status, detail)`, or an unhandled exception
propagating out of the handler (a failing store call, or `dict(None)`). -/
inductive HOutcome where
  | ok (r : Response)
  | httpExc (status : Nat) (detail : String)
  | raised
deriving DecidableEq

/-- Result of one handler execution: its outcome, the connection it
opened (with its final closed flag), and the store state it leaves
behind. -/
structure RunResult where
  outcome : HOutcome
  conn : Conn
  db : DB
deriving DecidableEq

/-- Embeds the `health` handler (lines 83-88):
`con = connect(); con.execute("SELECT 1"); con.close(); return ...`.
`fSel` says whether the SELECT raises; a raising statement propagates
before `con.close()` is reached. -/
def health (db : DB) (fSel : Bool) : RunResult :=
  let con := connect
  if fSel then ⟨.raised, con, db⟩
  else
    let con := con.close
    ⟨.ok ⟨200, .healthOk⟩, con, db⟩

/-- Relation ordering rows by descending id, as in
`SELECT ... ORDER BY id DESC`. -/
def byIdDesc (a b : Task) : Prop := b.id ≤ a.id

instance : DecidableRel byIdDesc := fun a b => Nat.decLe b.id a.id

instance : IsTotal Task byIdDesc := ⟨fun a b => (Nat.le_total a.id b.id).symm⟩

instance : IsTrans Task byIdDesc := ⟨fun _ _ _ hab hbc => Nat.le_trans hbc hab⟩

/-- Embeds the `list_tasks` handler (lines 90-95): SELECT all rows
ordered by id descending, close, return the rows. -/
def list_tasks (db : DB) (fSel : Bool) : RunResult :=
  let con := connect
  if fSel then ⟨.raised, con, db⟩
  else
    let rows := List.insertionSort byIdDesc db.tasks
    let con := con.close
    ⟨.ok ⟨200, .tasks rows⟩, con, db⟩

/-- Embeds the `create_task` handler body (lines 97-107), after pydantic
validation succeeded with `title`. Statements in source order: INSERT
(fault `fIns`), `con.commit()` (fault `fCommit`), SELECT of the row with
id `cur.lastrowid` (fault `fSel`), `con.close()`, `return dict(row)`.
The INSERT assigns id `db.nextId` and sets done to 0 and created_at to
the current sqlite timestamp `now`; a fault before the commit completes
rolls the insert back (the connection auto-begins a transaction for DML
and an unfinished transaction is not durable). If the final SELECT were
to find no row, `dict(None)` would raise after the close. -/
def create_task (db : DB) (title now : String) (fIns fCommit fSel : Bool) : RunResult :=
  let con := connect
  if fIns then ⟨.raised, con, db⟩
  else
    let lastrowid := db.nextId
    let db1 : DB := ⟨db.tasks ++ [⟨db.nextId, title, 0, now⟩], db.nextId + 1⟩
    if fCommit then ⟨.raised, con, db⟩
    else if fSel then ⟨.raised, con, db1⟩
    else
      match db1.tasks.find? (fun t => t.id == lastrowid) with
      | some row => ⟨.ok ⟨201, .task row⟩, con.close, db1⟩
      | none => ⟨.raised, con.close, db1⟩

/-- The WHERE clause `id=?` of the UPDATE and SELECT of `mark_done`:
whether a row matches the path parameter (sqlite compares the INTEGER
column with the bound int). -/
def idMatches (task_id : Int) (t : Task) : Bool := (t.id : Int) == task_id

/-- Effect of `UPDATE tasks SET done=1 WHERE id=?` on one row. -/
def setDone (task_id : Int) (t : Task) : Task :=
  if idMatches task_id t then { t with done := 1 } else t

/-- Embeds the `mark_done` handler (lines 109-119). Statements in source
order: UPDATE setting done to 1 on every row whose id equals `task_id`
(fault `fUpd`; `cur.rowcount` is the number of rows the WHERE clause
matched), `con.commit()` (fault `fCommit`), then: if rowcount is 0,
`con.close()` and `raise HTTPException(404, "Task not found")`;
otherwise SELECT the row (fault `fSel`), `con.close()`,
`return dict(row)`. -/
def mark_done (db : DB) (task_id : Int) (fUpd fCommit fSel : Bool) : RunResult :=
  let con := connect
  if fUpd then ⟨.raised, con, db⟩
  else
    let rowcount := (db.tasks.filter (idMatches task_id)).length
    let db1 : DB := ⟨db.tasks.map (setDone task_id), db.nextId⟩
    if fCommit then ⟨.raised, con, db⟩
    else if rowcount = 0 then ⟨.httpExc 404 "Task not found", con.close, db1⟩
    else if fSel then ⟨.raised, con, db1⟩
    else
      match db1.tasks.find? (idMatches task_id) with
      | some row => ⟨.ok ⟨200, .task row⟩, con.close, db1⟩
      | none => ⟨.raised, con.close, db1⟩

/-- Embeds the request payload model `TaskCreate` (lines 40-41):
a single field `title` constrained by pydantic to length 1..200. -/
structure TaskCreate where
  title : String
deriving DecidableEq

/-- Embeds the pydantic validation FastAPI runs on the POST /tasks body
before the handler: the title must be present and have length within
1..200; otherwise the request is rejected with 422 and the handler never
runs. -/
def validateTaskCreate : Option String → Option TaskCreate
  | none => none
  | some s => if 1 ≤ s.length ∧ s.length ≤ 200 then some ⟨s⟩ else none

/-- How FastAPI turns a handler outcome into an HTTP response:
a returned value passes through, `HTTPException(s, d)` becomes status `s`
with body detail `d`, and an unhandled exception becomes a 500. -/
def HOutcome.toResponse : HOutcome → Response
  | .ok r => r
  | .httpExc s d => ⟨s, .detail d⟩
  | .raised => ⟨500, .detail "Internal Server Error"⟩

/-- GET /health on a reachable store: the fault-free run of `health`. -/
def healthEndpoint (db : DB) : Response × DB :=
  ((health db false).outcome.toResponse, (health db false).db)

/-- GET /tasks on a reachable store. -/
def getTasksEndpoint (db : DB) : Response × DB :=
  ((list_tasks db false).outcome.toResponse, (list_tasks db false).db)

/-- POST /tasks on a reachable store: pydantic validation, then the
handler body. -/
def postTasksEndpoint (db : DB) (titleOpt : Option String) (now : String) : Response × DB :=
  match validateTaskCreate titleOpt with
  | none => (⟨422, .validationError⟩, db)
  | some payload =>
    ((create_task db payload.title now false false false).outcome.toResponse,
     (create_task db payload.title now false false false).db)

/-- PATCH /tasks/{task_id}/done on a reachable store. -/
def patchDoneEndpoint (db : DB) (task_id : Int) : Response × DB :=
  ((mark_done db task_id false false false).outcome.toResponse,
   (mark_done db task_id false false false).db)

/-- Requests of the documented HTTP surface. -/
inductive Req where
  | getHealth
  | getTasks
  | postTasks (titleOpt : Option String) (now : String)
  | patchDone (task_id : Int)
  | getMetrics

/-- Method and path template a request matches. -/
def routeOf : Req → String × String
  | .getHealth => ("GET", "/health")
  | .getTasks => ("GET", "/tasks")
  | .postTasks _ _ => ("POST", "/tasks")
  | .patchDone _ => ("PATCH", "/tasks/\x7btask_id\x7d/done")
  | .getMetrics => ("GET", "/metrics")

/-- Dispatch a request to its registered handler (reachable store). -/
def dispatch (db : DB) : Req → Response × DB
  | .getHealth => healthEndpoint db
  | .getTasks => getTasksEndpoint db
  | .postTasks titleOpt now => postTasksEndpoint db titleOpt now
  | .patchDone i => patchDoneEndpoint db i
  | .getMetrics => (⟨200, .metricsExposition⟩, db)

/-- A FastAPI application object, reduced to its route table. -/
structure AppObj where
  routes : List (String × String)
deriving DecidableEq

/-- Registering a route on an application object (a route decorator). -/
def addRoute (a : AppObj) (m p : String) : AppObj := ⟨a.routes ++ [(m, p)]⟩

/-- The application object created at line 38
(`app = FastAPI(title=APP_NAME)`) on which the decorators of lines
62-123 then register the five routes. -/
def appWithRoutes : AppObj :=
  addRoute (addRoute (addRoute (addRoute (addRoute ⟨[]⟩
    "GET" "/health") "GET" "/tasks") "POST" "/tasks")
    "PATCH" "/tasks/\x7btask_id\x7d/done") "GET" "/metrics"

/-- The application object the module exports: line 124 re-binds
`app = FastAPI()`, a fresh instance with no routes registered, and this
final binding is the module attribute `app` that the server and the
tests import. -/
def app : AppObj := ⟨[]⟩

/-- Serving one request against an application object: a registered
route runs its handler; an unmatched route gets the framework 404. -/
def handle (a : AppObj) (db : DB) (r : Req) : Response × DB :=
  if routeOf r ∈ a.routes then dispatch db r
  else (⟨404, .detail "Not Found"⟩, db)

/-- Running a sequence of requests through the registered handlers,
threading the store state. -/
def runOps (db : DB) (ops : List Req) : DB :=
  ops.foldl (fun d r => (dispatch d r).2) db

/-- The structured log line the middleware emits (lines 75 and 80). -/
def logLine (method path : String) (status : Nat) (duration_ms : Nat) : String :=
  "\x7b\"event\":\"request\",\"method\":\"" ++ method ++ "\",\"path\":\"" ++ path ++
    "\",\"status\":" ++ toString status ++ ",\"duration_ms\":" ++ toString duration_ms ++ "\x7d"

/-- Observability side effects of one request: counter increments with
their (method, path, status) labels, histogram observations with their
(method, path) labels, and emitted log lines, each in order. -/
structure ObsEvents where
  counts : List (String × String × String)
  observes : List (String × String)
  logs : List String
deriving DecidableEq

/-- Embeds `observability_mw` (lines 66-81). The downstream handler
chain either raises an exception (`Except.error e`, with `e` identifying
the exception object) or produces a response. On exception: increment
the counter labelled with status "500", observe the latency, log with
status 500, then re-raise the same exception. On normal completion: the
same three effects with the actual status code of the response, then
return the response unchanged. -/
def observability_mw (method path : String) (downstream : Except Nat Response)
    (duration_ms : Nat) : Except Nat Response × ObsEvents :=
  match downstream with
  | .error e =>
    (.error e,
     ⟨[(method, path, "500")], [(method, path)], [logLine method path 500 duration_ms]⟩)
  | .ok r =>
    (.ok r,
     ⟨[(method, path, toString r.status)], [(method, path)],
      [logLine method path r.status duration_ms]⟩)

/-- Well-formedness of a store state, maintained by the schema
(`id INTEGER PRIMARY KEY AUTOINCREMENT`): row ids strictly increase in
rowid order, and every id is below the AUTOINCREMENT counter. Holds for
`init_db` and is preserved by every operation. -/
def WF (db : DB) : Prop :=
  (db.tasks.map (fun t => t.id)).Pairwise (· < ·) ∧ ∀ t ∈ db.tasks, t.id < db.nextId

/-! Helper lemmas about the embedded operations. -/

theorem setDone_id (task_id : Int) (t : Task) : (setDone task_id t).id = t.id := by
  unfold setDone
  split <;> rfl

theorem setDone_title (task_id : Int) (t : Task) : (setDone task_id t).title = t.title := by
  unfold setDone
  split <;> rfl

theorem setDone_created_at (task_id : Int) (t : Task) :
    (setDone task_id t).created_at = t.created_at := by
  unfold setDone
  split <;> rfl

theorem setDone_done_of_done (task_id : Int) (t : Task) (h : t.done = 1) :
    (setDone task_id t).done = 1 := by
  unfold setDone
  split <;> simp [h]

theorem setDone_of_match (task_id : Int) (t : Task) (h : (t.id : Int) = task_id) :
    setDone task_id t = { t with done := 1 } := by
  unfold setDone idMatches
  simp [h]

theorem setDone_of_no_match (task_id : Int) (t : Task) (h : (t.id : Int) ≠ task_id) :
    setDone task_id t = t := by
  unfold setDone idMatches
  simp [h]

theorem setDone_idem (task_id : Int) (t : Task) :
    setDone task_id (setDone task_id t) = setDone task_id t := by
  by_cases h : (t.id : Int) = task_id
  · rw [setDone_of_match _ _ h, setDone_of_match]
    exact h
  · rw [setDone_of_no_match _ _ h, setDone_of_no_match _ _ h]

theorem idMatches_iff (task_id : Int) (t : Task) :
    idMatches task_id t = true ↔ (t.id : Int) = task_id := by
  unfold idMatches
  exact beq_iff_eq

theorem map_setDone_of_no_match (task_id : Int) (ts : List Task)
    (h : ∀ t ∈ ts, (t.id : Int) ≠ task_id) : ts.map (setDone task_id) = ts := by
  induction ts with
  | nil => rfl
  | cons a l ih =>
    have ha := setDone_of_no_match task_id a (h a (List.mem_cons_self a l))
    simp only [List.map_cons, ha, List.cons.injEq, true_and]
    exact ih (fun t ht => h t (List.mem_cons_of_mem _ ht))

theorem rowcount_zero_iff (task_id : Int) (ts : List Task) :
    (ts.filter (idMatches task_id)).length = 0 ↔ ∀ t ∈ ts, (t.id : Int) ≠ task_id := by
  rw [List.length_eq_zero, List.filter_eq_nil_iff]
  constructor
  · intro h t ht
    intro heq
    exact h t ht ((idMatches_iff task_id t).mpr heq)
  · intro h t ht hm
    exact h t ht ((idMatches_iff task_id t).mp hm)

theorem find?_append_all_false (p : Task → Bool) (ts ts2 : List Task)
    (h : ∀ t ∈ ts, p t = false) : (ts ++ ts2).find? p = ts2.find? p := by
  induction ts with
  | nil => rfl
  | cons a l ih =>
    have ha := h a (List.mem_cons_self a l)
    simp only [List.cons_append, List.find?, ha]
    exact ih (fun t ht => h t (List.mem_cons_of_mem _ ht))

theorem mark_done_run_404 (db : DB) (task_id : Int)
    (h : ∀ t ∈ db.tasks, (t.id : Int) ≠ task_id) :
    mark_done db task_id false false false = ⟨.httpExc 404 "Task not found", ⟨true⟩, db⟩ := by
  unfold mark_done
  have hc : (db.tasks.filter (idMatches task_id)).length = 0 := (rowcount_zero_iff _ _).mpr h
  have hm : db.tasks.map (setDone task_id) = db.tasks := map_setDone_of_no_match _ _ h
  simp [hc, hm, connect, Conn.close]

theorem mark_done_run_200 (db : DB) (task_id : Int)
    (h : ∃ t ∈ db.tasks, (t.id : Int) = task_id) :
    ∃ row : Task,
      mark_done db task_id false false false =
        ⟨.ok ⟨200, .task row⟩, ⟨true⟩, ⟨db.tasks.map (setDone task_id), db.nextId⟩⟩ ∧
      row.done = 1 ∧ (row.id : Int) = task_id := by
  obtain ⟨t, ht, hid⟩ := h
  have hcne : (db.tasks.filter (idMatches task_id)).length ≠ 0 := by
    intro h0
    exact (rowcount_zero_iff task_id db.tasks).mp h0 t ht hid
  have hmem : setDone task_id t ∈ db.tasks.map (setDone task_id) :=
    List.mem_map_of_mem _ ht
  have hmatch : idMatches task_id (setDone task_id t) = true := by
    rw [idMatches_iff, setDone_id]
    exact hid
  have hsome : ∃ x, (db.tasks.map (setDone task_id)).find? (idMatches task_id) = some x := by
    have : ((db.tasks.map (setDone task_id)).find? (idMatches task_id)).isSome := by
      rw [List.find?_isSome]
      exact ⟨setDone task_id t, hmem, hmatch⟩
    exact Option.isSome_iff_exists.mp this
  obtain ⟨row, hrow⟩ := hsome
  have hrowP : idMatches task_id row = true := List.find?_some hrow
  have hrowMem : row ∈ db.tasks.map (setDone task_id) := List.mem_of_find?_eq_some hrow
  have hrowId : (row.id : Int) = task_id := (idMatches_iff _ _).mp hrowP
  have hrowDone : row.done = 1 := by
    obtain ⟨u, hu, hru⟩ := List.mem_map.mp hrowMem
    by_cases hum : (u.id : Int) = task_id
    · rw [← hru, setDone_of_match _ _ hum]
    · rw [← hru, setDone_of_no_match _ _ hum] at hrowId
      exact absurd hrowId hum
  refine ⟨row, ?_, hrowDone, hrowId⟩
  unfold mark_done
  simp [hcne, hrow, connect, Conn.close]

theorem mark_done_run_db (db : DB) (task_id : Int) :
    (mark_done db task_id false false false).db =
      ⟨db.tasks.map (setDone task_id), db.nextId⟩ := by
  unfold mark_done
  by_cases hc : (db.tasks.filter (idMatches task_id)).length = 0
  · have h : ∀ t ∈ db.tasks, (t.id : Int) ≠ task_id := (rowcount_zero_iff _ _).mp hc
    have hm : db.tasks.map (setDone task_id) = db.tasks := map_setDone_of_no_match _ _ h
    simp [hc, hm]
  · rcases hf : (db.tasks.map (setDone task_id)).find? (idMatches task_id) with _ | row <;>
      simp [hc, hf]

theorem create_task_run_eq (db : DB) (title now : String)
    (hb : ∀ t ∈ db.tasks, t.id < db.nextId) :
    create_task db title now false false false =
      ⟨.ok ⟨201, .task ⟨db.nextId, title, 0, now⟩⟩, ⟨true⟩,
       ⟨db.tasks ++ [⟨db.nextId, title, 0, now⟩], db.nextId + 1⟩⟩ := by
  unfold create_task
  have hfind :
      (db.tasks ++ [(⟨db.nextId, title, 0, now⟩ : Task)]).find? (fun t => t.id == db.nextId) =
        some ⟨db.nextId, title, 0, now⟩ := by
    rw [find?_append_all_false]
    · simp [List.find?]
    · intro t ht
      have := hb t ht
      simp only [beq_eq_false_iff_ne, ne_eq]
      omega
  simp [hfind, connect, Conn.close]

theorem create_task_run_db (db : DB) (title now : String) :
    (create_task db title now false false false).db =
      ⟨db.tasks ++ [⟨db.nextId, title, 0, now⟩], db.nextId + 1⟩ := by
  unfold create_task
  rcases hf : (db.tasks ++ [(⟨db.nextId, title, 0, now⟩ : Task)]).find?
      (fun t => t.id == db.nextId) with _ | row <;> simp [hf]

theorem create_task_run_closed (db : DB) (title now : String) :
    (create_task db title now false false false).conn.closed = true := by
  unfold create_task
  rcases hf : (db.tasks ++ [(⟨db.nextId, title, 0, now⟩ : Task)]).find?
      (fun t => t.id == db.nextId) with _ | row <;> simp [hf, Conn.close]

theorem mark_done_run_closed (db : DB) (task_id : Int) :
    (mark_done db task_id false false false).conn.closed = true := by
  unfold mark_done
  by_cases hc : (db.tasks.filter (idMatches task_id)).length = 0
  · simp [hc, Conn.close]
  · rcases hf : (db.tasks.map (setDone task_id)).find? (idMatches task_id) with _ | row <;>
      simp [hc, hf, Conn.close]

/-! Claim theorems. -/

/-- C1: the claim says the application object exported by the module
serves every documented endpoint, in particular GET /health with 200 and
the health body. The code re-binds the module attribute at line 124
(`app = FastAPI()`) after all routes were registered on the instance of
line 38, so the exported object has an empty route table and GET /health
on it yields the framework 404 — while the same request on the earlier,
discarded instance yields 200 with the health body. This contradicts the
documented surface and the repository tests, which import `app` and
expect 200 from GET /health. -/
theorem exported_app_does_not_serve_health (db : DB) :
    app.routes = [] ∧
    handle app db .getHealth = (⟨404, .detail "Not Found"⟩, db) ∧
    handle appWithRoutes db .getHealth = (⟨200, .healthOk⟩, db) := by
  refine ⟨rfl, ?_, ?_⟩ <;>
    simp [handle, app, appWithRoutes, addRoute, routeOf, dispatch, healthEndpoint, health,
      connect, Conn.close, HOutcome.toResponse]

/-- C2 counterexample: the claim says the connection opened by a handler
is released on every execution path, including the path where a store
statement raises. In the health handler the statement
`con.execute("SELECT 1")` precedes `con.close()` with no try/finally, so
when the SELECT raises the exception propagates and the connection is
never closed. -/
theorem health_store_failure_leaks_connection :
    (health init_db true).conn.closed = false ∧ (health init_db true).outcome = .raised :=
  ⟨rfl, rfl⟩

/-- C2 amended: on every path on which no store statement raises — normal
completion of all four handlers and the 404 path of mark_done (which
closes before raising HTTPException) — the connection opened by the
handler is closed by the end of the request; but when a store statement
raises, the handler propagates the exception without closing. -/
theorem conn_closed_on_fault_free_paths (db : DB) (task_id : Int) (title now : String) :
    (health db false).conn.closed = true ∧
    (list_tasks db false).conn.closed = true ∧
    (create_task db title now false false false).conn.closed = true ∧
    (mark_done db task_id false false false).conn.closed = true :=
  ⟨rfl, rfl, create_task_run_closed db title now, mark_done_run_closed db task_id⟩

/-- C9: the observability middleware performs exactly one counter
increment, one latency observation and one log line per request; on a
downstream exception it labels the counter with status 500 and re-raises
the same exception; on normal completion it labels with the actual
status code of the response and returns the response unchanged. -/
theorem observability_mw_spec (method path : String) (d : Except Nat Response) (dur : Nat) :
    (observability_mw method path d dur).1 = d ∧
    (observability_mw method path d dur).2.counts.length = 1 ∧
    (observability_mw method path d dur).2.observes.length = 1 ∧
    (observability_mw method path d dur).2.logs.length = 1 ∧
    (observability_mw method path d dur).2.observes = [(method, path)] ∧
    (∀ e, d = .error e →
      (observability_mw method path d dur).2.counts = [(method, path, "500")] ∧
      (observability_mw method path d dur).2.logs = [logLine method path 500 dur]) ∧
    (∀ r, d = .ok r →
      (observability_mw method path d dur).2.counts = [(method, path, toString r.status)] ∧
      (observability_mw method path d dur).2.logs = [logLine method path r.status dur]) := by
  cases d <;> simp [observability_mw]

/-- C9 witness: the middleware spec applied to a concrete successful
request and a concrete failing one. -/
theorem observability_mw_spec_witness :
    (observability_mw "GET" "/health" (.ok ⟨200, .healthOk⟩) 3).1 = .ok ⟨200, .healthOk⟩ ∧
    (observability_mw "GET" "/health" (.ok ⟨200, .healthOk⟩) 3).2.counts =
      [("GET", "/health", "200")] ∧
    (observability_mw "POST" "/tasks" (.error 7) 3).2.counts = [("POST", "/tasks", "500")] := by
  refine ⟨(observability_mw_spec "GET" "/health" (.ok ⟨200, .healthOk⟩) 3).1, ?_, ?_⟩
  · have h := ((observability_mw_spec "GET" "/health"
      (.ok ⟨200, .healthOk⟩) 3).2.2.2.2.2.2 ⟨200, .healthOk⟩ rfl).1
    simpa using h
  · exact ((observability_mw_spec "POST" "/tasks" (.error 7) 3).2.2.2.2.2.1 7 rfl).1

/-- C10: when mark_done answers 404 because no row matched, the store
state is unchanged: the UPDATE matched zero rows, so the commit wrote an
identical table. -/
theorem mark_done_404_state_unchanged (db : DB) (task_id : Int)
    (h : ∀ t ∈ db.tasks, (t.id : Int) ≠ task_id) :
    (patchDoneEndpoint db task_id).1 = ⟨404, .detail "Task not found"⟩ ∧
    (patchDoneEndpoint db task_id).2 = db := by
  unfold patchDoneEndpoint
  rw [mark_done_run_404 db task_id h]
  exact ⟨rfl, rfl⟩

/-- C10 witness: a failed mark_done on a concrete store with one task
and a non-matching id leaves the store exactly as it was. -/
theorem mark_done_404_state_unchanged_witness :
    (patchDoneEndpoint ⟨[⟨1, "write report", 0, "2026-01-01 00:00:00"⟩], 2⟩ 999999).1 =
      ⟨404, .detail "Task not found"⟩ ∧
    (patchDoneEndpoint ⟨[⟨1, "write report", 0, "2026-01-01 00:00:00"⟩], 2⟩ 999999).2 =
      ⟨[⟨1, "write report", 0, "2026-01-01 00:00:00"⟩], 2⟩ :=
  mark_done_404_state_unchanged ⟨[⟨1, "write report", 0, "2026-01-01 00:00:00"⟩], 2⟩ 999999
    (by decide)

/-- C6: mark_done answers 404 with body detail "Task not found" exactly
when no stored row has the given id; otherwise it answers 200, the
returned row has done 1 and the requested id, and the store afterwards
is the original table with done set to 1 on every matching row. -/
theorem mark_done_spec (db : DB) (task_id : Int) :
    ((patchDoneEndpoint db task_id).1 = ⟨404, .detail "Task not found"⟩ ↔
      ∀ t ∈ db.tasks, (t.id : Int) ≠ task_id) ∧
    ((∃ t ∈ db.tasks, (t.id : Int) = task_id) →
      (patchDoneEndpoint db task_id).1.status = 200 ∧
      (∃ row : Task, (patchDoneEndpoint db task_id).1.body = .task row ∧
        row.done = 1 ∧ (row.id : Int) = task_id) ∧
      (patchDoneEndpoint db task_id).2 = ⟨db.tasks.map (setDone task_id), db.nextId⟩) := by
  constructor
  · constructor
    · intro h404
      by_contra hne
      push_neg at hne
      obtain ⟨t, ht, hid⟩ := hne
      obtain ⟨row, hrun, _, _⟩ := mark_done_run_200 db task_id ⟨t, ht, hid⟩
      unfold patchDoneEndpoint at h404
      rw [hrun] at h404
      simp [HOutcome.toResponse] at h404
    · intro h
      unfold patchDoneEndpoint
      rw [mark_done_run_404 db task_id h]
      rfl
  · intro hex
    obtain ⟨row, hrun, hdone, hrid⟩ := mark_done_run_200 db task_id hex
    unfold patchDoneEndpoint
    rw [hrun]
    exact ⟨rfl, ⟨row, rfl, hdone, hrid⟩, rfl⟩

/-- C6 witness: the spec of mark_done applied to a store with one
matching task. -/
theorem mark_done_spec_witness :
    (∃ t ∈ (⟨[⟨1, "a", 0, "t0"⟩], 2⟩ : DB).tasks, (t.id : Int) = 1) ∧
    (patchDoneEndpoint ⟨[⟨1, "a", 0, "t0"⟩], 2⟩ 1).1.status = 200 ∧
    (patchDoneEndpoint ⟨[⟨1, "a", 0, "t0"⟩], 2⟩ 1).2 = ⟨[⟨1, "a", 1, "t0"⟩], 2⟩ := by
  have h := (mark_done_spec ⟨[⟨1, "a", 0, "t0"⟩], 2⟩ 1).2 (by decide)
  refine ⟨by decide, h.1, ?_⟩
  rw [h.2.2]
  decide

/-- C7: marking a task done a second time still answers 200 with a row
whose done is 1, and leaves the store exactly as after the first call. -/
theorem mark_done_idempotent (db : DB) (task_id : Int)
    (hex : ∃ t ∈ db.tasks, (t.id : Int) = task_id) :
    (patchDoneEndpoint (patchDoneEndpoint db task_id).2 task_id).1.status = 200 ∧
    (∃ row : Task,
      (patchDoneEndpoint (patchDoneEndpoint db task_id).2 task_id).1.body = .task row ∧
      row.done = 1) ∧
    (patchDoneEndpoint (patchDoneEndpoint db task_id).2 task_id).2 =
      (patchDoneEndpoint db task_id).2 := by
  obtain ⟨t, ht, hid⟩ := hex
  have hdb1 : (patchDoneEndpoint db task_id).2 =
      ⟨db.tasks.map (setDone task_id), db.nextId⟩ := mark_done_run_db db task_id
  rw [hdb1]
  have hex1 : ∃ u ∈ (⟨db.tasks.map (setDone task_id), db.nextId⟩ : DB).tasks,
      (u.id : Int) = task_id :=
    ⟨setDone task_id t, List.mem_map_of_mem _ ht, by rw [setDone_id]; exact hid⟩
  obtain ⟨row, hrun, hdone, hrid⟩ :=
    mark_done_run_200 ⟨db.tasks.map (setDone task_id), db.nextId⟩ task_id hex1
  unfold patchDoneEndpoint
  rw [hrun]
  refine ⟨rfl, ⟨row, rfl, hdone⟩, ?_⟩
  simp only [List.map_map]
  congr 1
  exact List.map_congr_left (fun u _ => by
    simp only [Function.comp]
    exact setDone_idem task_id u)

/-- C7 witness: marking the same concrete task done twice. -/
theorem mark_done_idempotent_witness :
    (patchDoneEndpoint (patchDoneEndpoint ⟨[⟨1, "a", 0, "t0"⟩], 2⟩ 1).2 1).1.status = 200 ∧
    (patchDoneEndpoint (patchDoneEndpoint ⟨[⟨1, "a", 0, "t0"⟩], 2⟩ 1).2 1).2 =
      (patchDoneEndpoint ⟨[⟨1, "a", 0, "t0"⟩], 2⟩ 1).2 := by
  have h := mark_done_idempotent ⟨[⟨1, "a", 0, "t0"⟩], 2⟩ 1 (by decide)
  exact ⟨h.1, h.2.2⟩

theorem wf_init : WF init_db := by
  unfold WF init_db
  exact ⟨List.Pairwise.nil, by simp⟩

theorem validate_some_of_valid (s : String) (h : 1 ≤ s.length ∧ s.length ≤ 200) :
    validateTaskCreate (some s) = some ⟨s⟩ := by
  simp only [validateTaskCreate]
  rw [if_pos h]

theorem validate_none_of_invalid (s : String) (h : ¬(1 ≤ s.length ∧ s.length ≤ 200)) :
    validateTaskCreate (some s) = none := by
  simp only [validateTaskCreate]
  rw [if_neg h]

/-- C3: creating a task with a valid title answers 201 with a row whose
title is the input, whose done is 0, and whose id differs from the id of
every row already stored; the row is appended to the table and the
AUTOINCREMENT counter moves on. -/
theorem create_task_valid_title (db : DB) (title now : String) (hwf : WF db)
    (h1 : 1 ≤ title.length) (h2 : title.length ≤ 200) :
    ∃ tk : Task,
      postTasksEndpoint db (some title) now =
        (⟨201, .task tk⟩, ⟨db.tasks ++ [tk], db.nextId + 1⟩) ∧
      tk.title = title ∧ tk.done = 0 ∧ ∀ t ∈ db.tasks, t.id ≠ tk.id := by
  refine ⟨⟨db.nextId, title, 0, now⟩, ?_, rfl, rfl, fun t ht => Nat.ne_of_lt (hwf.2 t ht)⟩
  unfold postTasksEndpoint
  rw [validate_some_of_valid title ⟨h1, h2⟩]
  show ((create_task db title now false false false).outcome.toResponse,
        (create_task db title now false false false).db) = _
  rw [create_task_run_eq db title now hwf.2]
  rfl

/-- C3 witness: creating a concrete task on the fresh store. -/
theorem create_task_valid_title_witness :
    (1 ≤ "write report".length ∧ "write report".length ≤ 200) ∧
    ∃ tk : Task,
      postTasksEndpoint init_db (some "write report") "2026-01-01 00:00:00" =
        (⟨201, .task tk⟩, ⟨init_db.tasks ++ [tk], init_db.nextId + 1⟩) ∧
      tk.title = "write report" ∧ tk.done = 0 ∧ ∀ t ∈ init_db.tasks, t.id ≠ tk.id :=
  ⟨by decide,
   create_task_valid_title init_db "write report" "2026-01-01 00:00:00" wf_init
     (by decide) (by decide)⟩

/-- C4: POST /tasks answers 422 exactly when the title is absent, empty
or longer than 200 characters; a 422 leaves the store unchanged; and any
valid title yields 201 with the freshly inserted row appended. -/
theorem create_task_validation (db : DB) (titleOpt : Option String) (now : String)
    (hwf : WF db) :
    ((postTasksEndpoint db titleOpt now).1.status = 422 ↔
      titleOpt = none ∨ ∃ s, titleOpt = some s ∧ (s.length = 0 ∨ 200 < s.length)) ∧
    ((postTasksEndpoint db titleOpt now).1.status = 422 →
      (postTasksEndpoint db titleOpt now).2 = db) ∧
    ((postTasksEndpoint db titleOpt now).1.status ≠ 422 →
      (postTasksEndpoint db titleOpt now).1.status = 201 ∧
      ∃ tk : Task, (postTasksEndpoint db titleOpt now).1.body = .task tk ∧
        (postTasksEndpoint db titleOpt now).2 = ⟨db.tasks ++ [tk], db.nextId + 1⟩) := by
  cases titleOpt with
  | none =>
    refine ⟨?_, ?_, ?_⟩ <;> simp [postTasksEndpoint, validateTaskCreate]
  | some s =>
    by_cases hv : 1 ≤ s.length ∧ s.length ≤ 200
    · have hpost : postTasksEndpoint db (some s) now =
          (⟨201, .task ⟨db.nextId, s, 0, now⟩⟩,
           ⟨db.tasks ++ [⟨db.nextId, s, 0, now⟩], db.nextId + 1⟩) := by
        unfold postTasksEndpoint
        rw [validate_some_of_valid s hv]
        show ((create_task db s now false false false).outcome.toResponse,
              (create_task db s now false false false).db) = _
        rw [create_task_run_eq db s now hwf.2]
        rfl
      rw [hpost]
      refine ⟨?_, fun h => by simp at h, fun _ => ⟨rfl, ⟨db.nextId, s, 0, now⟩, rfl, rfl⟩⟩
      constructor
      · intro h
        simp at h
      · rintro (h | ⟨s', hs', hbad⟩)
        · exact absurd h (by simp)
        · obtain rfl : s = s' := by injection hs'
          rcases hbad with h0 | h0 <;> omega
    · have hpost : postTasksEndpoint db (some s) now = (⟨422, .validationError⟩, db) := by
        unfold postTasksEndpoint
        rw [validate_none_of_invalid s hv]
      rw [hpost]
      refine ⟨⟨fun _ => ?_, fun _ => rfl⟩, fun _ => rfl, fun h => absurd rfl h⟩
      push_neg at hv
      by_cases h0 : s.length = 0
      · exact Or.inr ⟨s, rfl, Or.inl h0⟩
      · exact Or.inr ⟨s, rfl, Or.inr (hv (Nat.one_le_iff_ne_zero.mpr h0))⟩

/-- C4 witness: an empty title is rejected with 422 and does not change
the store; a valid title is accepted with 201. -/
theorem create_task_validation_witness :
    (postTasksEndpoint init_db (some "") "t0").1.status = 422 ∧
    (postTasksEndpoint init_db (some "") "t0").2 = init_db ∧
    (postTasksEndpoint init_db (some "a") "t0").1.status = 201 := by
  have h := create_task_validation init_db (some "") "t0" wf_init
  have h422 : (postTasksEndpoint init_db (some "") "t0").1.status = 422 :=
    (h.1).mpr (Or.inr ⟨"", rfl, Or.inl rfl⟩)
  have hok := create_task_validation init_db (some "a") "t0" wf_init
  have hne : (postTasksEndpoint init_db (some "a") "t0").1.status ≠ 422 := by
    intro hc
    rcases (hok.1).mp hc with hbad | ⟨s', hs', hbad⟩
    · exact Option.noConfusion hbad
    · obtain rfl : "a" = s' := by injection hs'
      revert hbad
      decide
  exact ⟨h422, h.2.1 h422, (hok.2.2 hne).1⟩

theorem pairwise_combine {R S : Task → Task → Prop} {l : List Task}
    (h1 : l.Pairwise R) (h2 : l.Pairwise S) : l.Pairwise (fun a b => R a b ∧ S a b) := by
  induction l with
  | nil => exact List.Pairwise.nil
  | cons a l ih =>
    rw [List.pairwise_cons] at h1 h2 ⊢
    exact ⟨fun b hb => ⟨h1.1 b hb, h2.1 b hb⟩, ih h1.2 h2.2⟩

/-- C5: GET /tasks answers 200 with a body holding exactly the stored
rows (a permutation of the table), ordered by id in strictly descending
order, and does not change the store. -/
theorem list_tasks_spec (db : DB) (hwf : WF db) :
    (getTasksEndpoint db).1.status = 200 ∧ (getTasksEndpoint db).2 = db ∧
    ∃ ts : List Task, (getTasksEndpoint db).1.body = .tasks ts ∧
      ts.Perm db.tasks ∧ (ts.map (fun t => t.id)).Pairwise (· > ·) := by
  have hperm : (List.insertionSort byIdDesc db.tasks).Perm db.tasks :=
    List.perm_insertionSort byIdDesc db.tasks
  refine ⟨rfl, rfl, List.insertionSort byIdDesc db.tasks, rfl, hperm, ?_⟩
  have hsorted : (List.insertionSort byIdDesc db.tasks).Pairwise byIdDesc :=
    List.sorted_insertionSort byIdDesc db.tasks
  have hne : db.tasks.Pairwise (fun a b => a.id ≠ b.id) := by
    have h1 := hwf.1
    rw [List.pairwise_map] at h1
    exact h1.imp (fun h => Nat.ne_of_lt h)
  have hne' : (List.insertionSort byIdDesc db.tasks).Pairwise (fun a b => a.id ≠ b.id) :=
    (hperm.pairwise_iff (fun {a b} h => Ne.symm h)).mpr hne
  rw [List.pairwise_map]
  exact (pairwise_combine hsorted hne').imp
    (fun h => Nat.lt_of_le_of_ne h.1 (Ne.symm h.2))

/-- C5 witness: listing a concrete two-row store yields 200 and the two
rows in descending id order. -/
theorem list_tasks_spec_witness :
    (getTasksEndpoint ⟨[⟨1, "a", 0, "t0"⟩, ⟨2, "b", 0, "t1"⟩], 3⟩).1.status = 200 ∧
    ∃ ts : List Task,
      (getTasksEndpoint ⟨[⟨1, "a", 0, "t0"⟩, ⟨2, "b", 0, "t1"⟩], 3⟩).1.body = .tasks ts ∧
      ts.Perm [⟨1, "a", 0, "t0"⟩, ⟨2, "b", 0, "t1"⟩] ∧
      (ts.map (fun t => t.id)).Pairwise (· > ·) := by
  have hwf : WF ⟨[⟨1, "a", 0, "t0"⟩, ⟨2, "b", 0, "t1"⟩], 3⟩ := by
    unfold WF
    refine ⟨?_, ?_⟩ <;> simp
  have h := list_tasks_spec ⟨[⟨1, "a", 0, "t0"⟩, ⟨2, "b", 0, "t1"⟩], 3⟩ hwf
  exact ⟨h.1, h.2.2⟩

/-- Well-formedness is preserved by every request, so `WF` holds in all
states reachable from `init_db` and the `WF` hypotheses of the claim
theorems are satisfied along every run. -/
theorem wf_dispatch (db : DB) (r : Req) (hwf : WF db) : WF (dispatch db r).2 := by
  cases r with
  | getHealth => exact hwf
  | getTasks => exact hwf
  | getMetrics => exact hwf
  | postTasks titleOpt now =>
    show WF (postTasksEndpoint db titleOpt now).2
    unfold postTasksEndpoint
    cases hv : validateTaskCreate titleOpt with
    | none => exact hwf
    | some payload =>
      show WF (create_task db payload.title now false false false).db
      rw [create_task_run_db db payload.title now]
      constructor
      · rw [List.map_append, List.pairwise_append]
        refine ⟨hwf.1, List.pairwise_singleton _ _, ?_⟩
        intro a ha b hb
        obtain ⟨u, hu, rfl⟩ := List.mem_map.mp ha
        simp only [List.map_cons, List.map_nil, List.mem_singleton] at hb
        rw [hb]
        exact hwf.2 u hu
      · intro t htm
        rcases List.mem_append.mp htm with h | h
        · exact Nat.lt_trans (hwf.2 t h) (Nat.lt_succ_self _)
        · rw [List.mem_singleton] at h
          rw [h]
          exact Nat.lt_succ_self _
  | patchDone i =>
    show WF (patchDoneEndpoint db i).2
    have hdb : (patchDoneEndpoint db i).2 = ⟨db.tasks.map (setDone i), db.nextId⟩ :=
      mark_done_run_db db i
    rw [hdb]
    have hids : (db.tasks.map (setDone i)).map (fun t => t.id) =
        db.tasks.map (fun t => t.id) := by
      rw [List.map_map]
      exact List.map_congr_left (fun u _ => by
        simp only [Function.comp]
        exact setDone_id i u)
    constructor
    · rw [hids]
      exact hwf.1
    · intro t htm
      obtain ⟨u, hu, rfl⟩ := List.mem_map.mp htm
      rw [setDone_id]
      exact hwf.2 u hu

theorem wf_runOps (db : DB) (ops : List Req) (hwf : WF db) : WF (runOps db ops) := by
  induction ops generalizing db with
  | nil => exact hwf
  | cons r rest ih => exact ih (dispatch db r).2 (wf_dispatch db r hwf)

theorem step_done_monotone (db : DB) (r : Req) (t : Task)
    (ht : t ∈ db.tasks) (hd : t.done = 1) :
    ∃ t' ∈ (dispatch db r).2.tasks, t'.id = t.id ∧ t'.title = t.title ∧ t'.done = 1 := by
  cases r with
  | getHealth => exact ⟨t, ht, rfl, rfl, hd⟩
  | getTasks => exact ⟨t, ht, rfl, rfl, hd⟩
  | getMetrics => exact ⟨t, ht, rfl, rfl, hd⟩
  | postTasks titleOpt now =>
    show ∃ t' ∈ (postTasksEndpoint db titleOpt now).2.tasks, _
    unfold postTasksEndpoint
    cases hv : validateTaskCreate titleOpt with
    | none => exact ⟨t, ht, rfl, rfl, hd⟩
    | some payload =>
      show ∃ t' ∈ (create_task db payload.title now false false false).db.tasks, _
      rw [create_task_run_db db payload.title now]
      exact ⟨t, List.mem_append_left _ ht, rfl, rfl, hd⟩
  | patchDone i =>
    show ∃ t' ∈ (patchDoneEndpoint db i).2.tasks, _
    have hdb : (patchDoneEndpoint db i).2 = ⟨db.tasks.map (setDone i), db.nextId⟩ :=
      mark_done_run_db db i
    rw [hdb]
    exact ⟨setDone i t, List.mem_map_of_mem _ ht, setDone_id i t, setDone_title i t,
      setDone_done_of_done i t hd⟩

/-- C8: along any sequence of requests, a row whose done field is 1
keeps a successor row with the same id and title and done still 1 in
every later store state; no operation reverts done to 0. -/
theorem done_monotone (db : DB) (ops : List Req) (t : Task)
    (ht : t ∈ db.tasks) (hd : t.done = 1) :
    ∃ t' ∈ (runOps db ops).tasks, t'.id = t.id ∧ t'.title = t.title ∧ t'.done = 1 := by
  induction ops generalizing db t with
  | nil => exact ⟨t, ht, rfl, rfl, hd⟩
  | cons r rest ih =>
    obtain ⟨t', ht', hid, htit, hd'⟩ := step_done_monotone db r t ht hd
    obtain ⟨t'', h2, hid2, htit2, hd2⟩ := ih (dispatch db r).2 t' ht' hd'
    exact ⟨t'', h2, hid2.trans hid, htit2.trans htit, hd2⟩

/-- C8 witness: a done task survives a create, a mark-done of another
id, and a list. -/
theorem done_monotone_witness :
    ∃ t' ∈ (runOps ⟨[⟨1, "a", 1, "t0"⟩], 2⟩
        [.postTasks (some "b") "t1", .patchDone 2, .getTasks]).tasks,
      t'.id = (⟨1, "a", 1, "t0"⟩ : Task).id ∧ t'.title = (⟨1, "a", 1, "t0"⟩ : Task).title ∧
      t'.done = 1 :=
  done_monotone ⟨[⟨1, "a", 1, "t0"⟩], 2⟩ [.postTasks (some "b") "t1", .patchDone 2, .getTasks]
    ⟨1, "a", 1, "t0"⟩ (by decide) rfl

end App
